import Mathlib

/-!
Verification of the force-directed graph engine of the linkdo frontend.

The definitions below are a shallow embedding of the TypeScript sources:
* `src/hooks/useForceSimulation.ts` (reconciliation, edge filtering,
  centering target, drag pin handlers, alpha decay configuration),
* `src/components/Graph/Graph.tsx` (zoom clamping, centerOnNode,
  external-selection centering effect),
* `src/components/Graph/GraphNode.tsx` (click/drag gesture machine),
* `src/components/Graph/MiniMap.tsx` (minimap projection).

Numbers are modelled as rationals; TypeScript `number | undefined` fields
become `Option ℚ`.  The d3-force integrator itself is a library dependency
that is not part of the repository, so its per-tick behaviour is modelled
from the spec where needed (each such definition says so in its doc
comment).
-/

namespace Linkdo

/-- Task priority, from `src/types/index.ts` (`Priority`). -/
inductive Priority where
  | low
  | medium
  | high
  | critical
deriving DecidableEq, Repr

/-- Task status, from `src/types/index.ts` (`TaskStatus`). -/
inductive TaskStatus where
  | todo
  | inProgress
  | done
deriving DecidableEq, Repr

/-- `PRIORITY_RADIUS` from `src/types/index.ts`. -/
def PRIORITY_RADIUS : Priority → ℚ
  | .low => 20
  | .medium => 30
  | .high => 40
  | .critical => 55

/-- `getDistanceByWeight` from `src/types/index.ts`. -/
def getDistanceByWeight (weight : ℚ) : ℚ :=
  let minDistance : ℚ := 80
  let maxDistance : ℚ := 250
  maxDistance - (maxDistance - minDistance) * weight

/-- A task node, from `src/types/index.ts` (`TaskNode`).  The optional
simulation fields `x, y, vx, vy` (`number | undefined`) and the pin fields
`fx, fy` (`number | null | undefined`; d3 treats `null` and `undefined`
alike via `== null`) are `Option ℚ`. -/
structure TaskNode where
  id : String
  title : String
  priority : Priority
  status : TaskStatus
  x : Option ℚ := none
  y : Option ℚ := none
  fx : Option ℚ := none
  fy : Option ℚ := none
  vx : Option ℚ := none
  vy : Option ℚ := none
deriving DecidableEq, Repr

/-- An edge endpoint, from `src/types/index.ts` (`TaskEdge.source/target`):
either a node id string or a resolved node object. -/
inductive EdgeEnd where
  | byId (id : String)
  | byNode (n : TaskNode)
deriving DecidableEq, Repr

/-- The id of an edge endpoint: `typeof e.source === 'string' ? e.source :
e.source.id` from `useForceSimulation.ts` lines 86-87. -/
def EdgeEnd.endpointId : EdgeEnd → String
  | .byId s => s
  | .byNode n => n.id

/-- A weighted edge, from `src/types/index.ts` (`TaskEdge`). -/
structure TaskEdge where
  source : EdgeEnd
  target : EdgeEnd
  weight : ℚ
deriving DecidableEq, Repr

/-- The fresh-position heuristic of `useForceSimulation.ts` line 58:
`n.x !== undefined && n.y !== undefined && n.x !== 0 && n.y !== 0`. -/
def hasNewPosition (n : TaskNode) : Bool :=
  n.x != none && n.y != none && n.x != some 0 && n.y != some 0

/-- The per-node branch of the `nodes.map` at `useForceSimulation.ts`
lines 54-81: keep the previous simulation state when a node with the same
id existed and the incoming record has no fresh position, otherwise adopt
the incoming coordinates with velocity reset and pin cleared. -/
def reconcileNode (prev : List TaskNode) (n : TaskNode) : TaskNode :=
  match prev.find? (fun p => p.id == n.id) with
  | some existingNode =>
    if hasNewPosition n then
      { n with vx := some 0, vy := some 0, fx := none, fy := none }
    else
      { n with
          x := existingNode.x, y := existingNode.y,
          vx := existingNode.vx, vy := existingNode.vy,
          fx := existingNode.fx, fy := existingNode.fy }
  | none =>
    { n with vx := some 0, vy := some 0, fx := none, fy := none }

/-- `nodesCopy` from `useForceSimulation.ts` lines 54-81. -/
def nodesCopy (prev incoming : List TaskNode) : List TaskNode :=
  incoming.map (reconcileNode prev)

/-- `validEdges` from `useForceSimulation.ts` lines 84-89: keep only the
edges whose both endpoint ids occur among the working node ids. -/
def validEdges (nodeIds : List String) (edges : List TaskEdge) : List TaskEdge :=
  edges.filter (fun e => nodeIds.contains e.source.endpointId &&
    nodeIds.contains e.target.endpointId)

/-- `(n.x || 0)` from `useForceSimulation.ts` lines 105-106 (JavaScript
`||` yields the right operand when the left is `undefined` or `0`). -/
def orZero : Option ℚ → ℚ
  | none => 0
  | some v => v

/-- `positionedNodes` from `useForceSimulation.ts` line 101: the nodes
with both coordinates defined. -/
def positionedNodes (ns : List TaskNode) : List TaskNode :=
  ns.filter (fun n => n.x != none && n.y != none)

/-- `centerX`/`centerY` from `useForceSimulation.ts` lines 100-107: the
canvas centre by default, else the mean of the positioned nodes. -/
def centerTarget (width height : ℚ) (ns : List TaskNode) : ℚ × ℚ :=
  let pos := positionedNodes ns
  if pos.length = 0 then
    (width / 2, height / 2)
  else
    ((pos.map (fun n => orZero n.x)).sum / pos.length,
     (pos.map (fun n => orZero n.y)).sum / pos.length)

/-- Modelled from the spec: the numeric zoom constants (`MIN_ZOOM`,
`MAX_ZOOM`, `ZOOM_STEP`, `ZOOM_BUTTON_STEP`) live in `src/constants.ts`,
which `Graph.tsx` imports but which is missing from the provided sources.
The spec only states that zoom is "clamped to [minZoom, maxZoom]" with a
fixed step per wheel tick and a larger fixed step for the buttons, so the
four values stay abstract parameters here. -/
structure ZoomConfig where
  minZoom : ℚ
  maxZoom : ℚ
  zoomStep : ℚ
  zoomButtonStep : ℚ
deriving DecidableEq, Repr

/-- A zoom operation: a wheel event with its `deltaY`, or one of the two
zoom buttons. -/
inductive ZoomOp where
  | wheel (deltaY : ℚ)
  | zoomInBtn
  | zoomOutBtn
deriving DecidableEq, Repr

/-- One zoom update: `handleWheel` from `Graph.tsx` lines 254-259 and the
`onZoomIn`/`onZoomOut` callbacks from lines 423-424. -/
def applyZoomOp (cfg : ZoomConfig) (zoom : ℚ) : ZoomOp → ℚ
  | .wheel deltaY =>
    let delta := if deltaY > 0 then -cfg.zoomStep else cfg.zoomStep
    min (max (zoom + delta) cfg.minZoom) cfg.maxZoom
  | .zoomInBtn => min (zoom + cfg.zoomButtonStep) cfg.maxZoom
  | .zoomOutBtn => max (zoom - cfg.zoomButtonStep) cfg.minZoom

/-- A sequence of zoom operations applied in order. -/
def applyZoomOps (cfg : ZoomConfig) (zoom : ℚ) (ops : List ZoomOp) : ℚ :=
  ops.foldl (applyZoomOp cfg) zoom

/-- World-space node bounds used by the minimap (`MiniMap.tsx`,
`bounds`). -/
structure Bounds where
  minX : ℚ
  maxX : ℚ
  minY : ℚ
  maxY : ℚ
deriving DecidableEq, Repr

/-- The minimap overlay is 150 by 100 with padding 20 (`MiniMap.tsx`,
`miniMapSize`/`padding`); `scale` is the smaller of the two axis scales. -/
def miniMapScale (b : Bounds) : ℚ :=
  min ((150 - 20 * 2) / (b.maxX - b.minX)) ((100 - 20 * 2) / (b.maxY - b.minY))

/-- `toMiniMapX` from `MiniMap.tsx`: world x to overlay x. -/
def toMiniMapX (b : Bounds) (x : ℚ) : ℚ :=
  (x - b.minX) * miniMapScale b + 20

/-- `toMiniMapY` from `MiniMap.tsx`: world y to overlay y. -/
def toMiniMapY (b : Bounds) (y : ℚ) : ℚ :=
  (y - b.minY) * miniMapScale b + 20

/-- The inverse projection of the minimap click handler (`MiniMap.tsx`,
`handleClick`): `worldX = (clickX - padding) / scale + bounds.minX`. -/
def miniMapClickToWorldX (b : Bounds) (clickX : ℚ) : ℚ :=
  (clickX - 20) / miniMapScale b + b.minX

/-- The y component of the minimap click handler's inverse projection. -/
def miniMapClickToWorldY (b : Bounds) (clickY : ℚ) : ℚ :=
  (clickY - 20) / miniMapScale b + b.minY

/-- A node as held inside a running d3 simulation: d3 initialises
`x, y, vx, vy` to numbers before the first tick, so those fields are total
here, while the pin fields `fx, fy` keep their optional type. -/
structure SimNode where
  id : String
  x : ℚ
  y : ℚ
  vx : ℚ
  vy : ℚ
  fx : Option ℚ := none
  fy : Option ℚ := none
deriving DecidableEq, Repr

/-- The mutable simulation handle held in `simulationRef`/`nodesRef` of
`useForceSimulation.ts`: the working nodes plus d3's `alpha` and
`alphaTarget`. -/
structure SimState where
  nodes : List SimNode
  alpha : ℚ
  alphaTarget : ℚ
deriving DecidableEq, Repr

/-- The configured decay rate: `.alphaDecay(0.02)` at
`useForceSimulation.ts` line 124. -/
def alphaDecay : ℚ := 1 / 50

/-- The configured friction: `.velocityDecay(0.3)` at
`useForceSimulation.ts` line 125; d3 multiplies each velocity by
`1 - velocityDecay` per tick. -/
def velocityDecay : ℚ := 3 / 10

/-- Modelled from the spec: the d3-force integrator (`simulation.tick`)
is a library dependency, not repository code.  Per the spec the
temperature "decays geometrically each tick"; d3 realises this as
`alpha += (alphaTarget - alpha) * alphaDecay`. -/
def alphaStep (alphaTarget alpha : ℚ) : ℚ :=
  alpha + (alphaTarget - alpha) * alphaDecay

/-- Modelled from the spec: d3's per-node position integration, which is
not repository code.  Per the spec, "when non-null, the simulation must
hold the node exactly at this position every tick, ignoring accumulated
forces on it"; d3 realises this per axis as `if fx == null then
x += vx *= (1 - velocityDecay) else x = fx, vx = 0`. -/
def integrate (n : SimNode) : SimNode :=
  let px : ℚ × ℚ :=
    match n.fx with
    | none => (n.x + n.vx * (1 - velocityDecay), n.vx * (1 - velocityDecay))
    | some qx => (qx, 0)
  let py : ℚ × ℚ :=
    match n.fy with
    | none => (n.y + n.vy * (1 - velocityDecay), n.vy * (1 - velocityDecay))
    | some qy => (qy, 0)
  { n with x := px.1, vx := px.2, y := py.1, vy := py.2 }

/-- Modelled from the spec: one d3 integration tick, not repository code.
It advances alpha, applies the force pass `f` — an arbitrary per-node
update standing for the combined link, charge, centering and collision
forces, which modify positions and velocities but never `id`, `fx` or
`fy` — and then integrates every node. -/
def tickSim (f : SimNode → SimNode) (s : SimState) : SimState :=
  { nodes := (s.nodes.map f).map integrate,
    alpha := alphaStep s.alphaTarget s.alpha,
    alphaTarget := s.alphaTarget }

/-- The functional rendering of the source's find-then-mutate idiom
(`simNodes.find((n) => n.id === nodeId)` followed by field assignment):
update the first node carrying the id, leave the rest untouched. -/
def updateFirst (g : SimNode → SimNode) (nodeId : String) : List SimNode → List SimNode
  | [] => []
  | n :: ns =>
    if n.id == nodeId then g n :: ns
    else n :: updateFirst g nodeId ns

/-- `node.fx = node.x; node.fy = node.y` from `handleDragStart`. -/
def pinAtCurrent (n : SimNode) : SimNode :=
  { n with fx := some n.x, fy := some n.y }

/-- `node.fx = x; node.fy = y` from `handleDrag`. -/
def pinAt (x y : ℚ) (n : SimNode) : SimNode :=
  { n with fx := some x, fy := some y }

/-- `node.fx = null; node.fy = null` from `handleDragEnd`. -/
def clearPin (n : SimNode) : SimNode :=
  { n with fx := none, fy := none }

/-- `handleDragStart` from `useForceSimulation.ts` lines 150-164: no-op
when the node list is empty, else raise `alphaTarget` to 0.3 and pin the
found node at its current position. -/
def handleDragStart (nodeId : String) (s : SimState) : SimState :=
  if s.nodes.isEmpty then s
  else
    { s with
        alphaTarget := 3 / 10,
        nodes := updateFirst pinAtCurrent nodeId s.nodes }

/-- `handleDrag` from `useForceSimulation.ts` lines 169-179: move the
found node's pin to the supplied coordinates. -/
def handleDrag (nodeId : String) (x y : ℚ) (s : SimState) : SimState :=
  if s.nodes.isEmpty then s
  else { s with nodes := updateFirst (pinAt x y) nodeId s.nodes }

/-- `handleDragEnd` from `useForceSimulation.ts` lines 184-198: drop
`alphaTarget` back to 0 and clear the found node's pin. -/
def handleDragEnd (nodeId : String) (s : SimState) : SimState :=
  if s.nodes.isEmpty then s
  else
    { s with
        alphaTarget := 0,
        nodes := updateFirst clearPin nodeId s.nodes }

/-- The alpha value after `n` ticks of a simulation started at alpha 1
with `alphaTarget` 0 (`initialAlpha = 1` at `useForceSimulation.ts` line
139 when no node carries a position). -/
def alphaSeq (n : ℕ) : ℚ :=
  (fun a => alphaStep 0 a)^[n] 1

/-- Gesture-machine state of `GraphNode.tsx`: the `hasMoved` local of
`handleMouseDown` and the `isDragging` ref, plus counters for the
callbacks fired (`onDragStart`, `onDragEnd`, `onSelect`). -/
structure GestureState where
  hasMoved : Bool
  isDragging : Bool
  dragStarts : ℕ
  dragEnds : ℕ
  selects : ℕ
deriving DecidableEq, Repr

/-- The movement threshold of `GraphNode.tsx` line 82 (`moveThreshold =
3`, screen pixels). -/
def moveThreshold : ℚ := 3

/-- The state effect of `handleMouseMove` (`GraphNode.tsx` lines
106-121): moves below the threshold on both axes are ignored until the
first committing move, which sets `hasMoved` and the `isDragging` ref and
fires `onDragStart` (the drag-coordinate bookkeeping of the remainder of
the handler does not touch this state). -/
def gestureMouseMove (startX startY : ℚ) (st : GestureState) (pos : ℚ × ℚ) :
    GestureState :=
  let dx := |pos.1 - startX|
  let dy := |pos.2 - startY|
  if !st.hasMoved && dx < moveThreshold && dy < moveThreshold then st
  else if !st.hasMoved then
    { st with hasMoved := true, isDragging := true, dragStarts := st.dragStarts + 1 }
  else st

/-- `handleMouseUp` from `GraphNode.tsx` lines 176-189: clear the
`isDragging` ref, and fire `onDragEnd` only when a drag had started. -/
def gestureMouseUp (st : GestureState) : GestureState :=
  let st := { st with isDragging := false }
  if st.hasMoved then { st with dragEnds := st.dragEnds + 1 } else st

/-- `handleClick` from `GraphNode.tsx` lines 197-206: fire `onSelect`
unless the `isDragging` ref is set. -/
def gestureClick (st : GestureState) : GestureState :=
  if !st.isDragging then { st with selects := st.selects + 1 } else st

/-- A complete pointer gesture on a node, in browser event order: a
mousedown at `(startX, startY)` (which installs the listeners and resets
`hasMoved`), the mousemove positions, the mouseup, and then the click
event that the browser dispatches after mouseup whenever both happened on
the same element — during a drag the node tracks the pointer, so the
click always arrives. -/
def runGesture (startX startY : ℚ) (moves : List (ℚ × ℚ)) : GestureState :=
  let st0 : GestureState :=
    { hasMoved := false, isDragging := false, dragStarts := 0, dragEnds := 0, selects := 0 }
  gestureClick (gestureMouseUp (moves.foldl (gestureMouseMove startX startY) st0))

/-- A move sequence stays under the drag threshold when every position is
within the threshold of the start on both axes (the code's Chebyshev-style
test at `GraphNode.tsx` line 112). -/
def underDragThreshold (startX startY : ℚ) (moves : List (ℚ × ℚ)) : Bool :=
  moves.all (fun pos =>
    |pos.1 - startX| < moveThreshold && |pos.2 - startY| < moveThreshold)

/-- The viewport state of `Graph.tsx` (`ViewState`): zoom scalar and pan
offset. -/
structure ViewState where
  zoom : ℚ
  panX : ℚ
  panY : ℚ
deriving DecidableEq, Repr

/-- JavaScript truthiness of an optional numeric field as used in the
guards `!node.x || !node.y` and `node.x && node.y`: `undefined` and `0`
are falsy, every other number is truthy. -/
def truthy : Option ℚ → Bool
  | none => false
  | some v => v != 0

/-- `centerOnNode` from `Graph.tsx` lines 154-177: bail out when either
coordinate is falsy; otherwise pan so the node lands at the canvas
centre, unless the pan delta is below `CENTER_SKIP_DISTANCE` (a constant
from the missing `src/constants.ts`, kept as the parameter
`skipDistance`).  The source compares `Math.sqrt(d)` with the threshold;
square root is monotone, so the guard is embedded as the equivalent
squared comparison to stay inside ℚ. -/
def centerOnNode (skipDistance width height : ℚ) (st : ViewState)
    (node : TaskNode) : ViewState :=
  if !(truthy node.x && truthy node.y) then st
  else
    let newPanX := width / 2 - orZero node.x * st.zoom
    let newPanY := height / 2 - orZero node.y * st.zoom
    let distSq := (newPanX - st.panX) ^ 2 + (newPanY - st.panY) ^ 2
    if distSq < skipDistance ^ 2 then st
    else { st with panX := newPanX, panY := newPanY }

/-- The external-selection centering effect of `Graph.tsx` lines 207-228
(the part after the previous-id bookkeeping): nothing is selected, or the
selection was already centered, or the node is looked up and centered —
and recorded in `lastCenteredIdRef` — only when found with truthy
coordinates. -/
def centeringEffect (skipDistance width height : ℚ) (nodes : List TaskNode)
    (externalSelectedId lastCenteredId : Option String) (st : ViewState) :
    ViewState × Option String :=
  match externalSelectedId with
  | none => (st, lastCenteredId)
  | some selId =>
    if lastCenteredId == some selId then (st, lastCenteredId)
    else
      match nodes.find? (fun n => n.id == selId) with
      | some node =>
        if truthy node.x && truthy node.y then
          (centerOnNode skipDistance width height st node, some selId)
        else (st, lastCenteredId)
      | none => (st, lastCenteredId)

/-- The spec's reading of the centering target in the seeded case: the
centroid is the arithmetic mean of the first and of the second
coordinates. -/
def centroid (ps : List (ℚ × ℚ)) : ℚ × ℚ :=
  ((ps.map Prod.fst).sum / ps.length, (ps.map Prod.snd).sum / ps.length)

/-- The centroid-seeding scenario of the spec: two nodes pre-seeded at
(100,100) and (300,100). -/
def seededNodes : List TaskNode :=
  [{ id := "a", title := "a", priority := .low, status := .todo,
     x := some 100, y := some 100 },
   { id := "b", title := "b", priority := .low, status := .todo,
     x := some 300, y := some 100 }]

/-- Concrete previous working node for reconciliation witnesses. -/
def wNodeOld : TaskNode :=
  { id := "a", title := "old", priority := .low, status := .todo,
    x := some 5, y := some 6, vx := some 1, vy := some 2,
    fx := some 9, fy := none }

/-- Concrete incoming node without coordinates. -/
def wNodeNew : TaskNode :=
  { id := "a", title := "new", priority := .high, status := .done }

/-- Concrete incoming node seeded exactly on the x axis (y = 0). -/
def wNodeOrigin : TaskNode :=
  { id := "a", title := "origin", priority := .high, status := .done,
    x := some 250, y := some 0 }

/-- Shared carry-over lemma: without a fresh position, reconciliation of
an entry whose id matched a previous node keeps the previous simulation
state. -/
theorem nodesCopy_carryover (prev incoming : List TaskNode) (i : ℕ)
    (hi : i < incoming.length) (hic : i < (nodesCopy prev incoming).length)
    (existing : TaskNode)
    (hfind : prev.find? (fun p => p.id == incoming[i].id) = some existing)
    (hfresh : hasNewPosition incoming[i] = false) :
    (nodesCopy prev incoming)[i] =
      { incoming[i] with
          x := existing.x, y := existing.y, vx := existing.vx, vy := existing.vy,
          fx := existing.fx, fy := existing.fy } := by
  have hmap : (nodesCopy prev incoming)[i] = reconcileNode prev incoming[i] := by
    simp [nodesCopy]
  rw [hmap, reconcileNode, hfind]
  simp [hfresh]

/-- C2: Conservation of identity across reconciliation — for every
rebuild of the working node set, a node whose id is present in both the
old and the new node lists and whose incoming record carries no explicit
fresh position retains its prior `x, y, vx, vy` (and `fx, fy`) values
unchanged going into the next tick. -/
theorem conservation_of_identity (prev incoming : List TaskNode) (i : ℕ)
    (hi : i < incoming.length) (hic : i < (nodesCopy prev incoming).length)
    (existing : TaskNode)
    (hfind : prev.find? (fun p => p.id == incoming[i].id) = some existing)
    (hfresh : hasNewPosition incoming[i] = false) :
    (nodesCopy prev incoming)[i] =
      { incoming[i] with
          x := existing.x, y := existing.y, vx := existing.vx, vy := existing.vy,
          fx := existing.fx, fy := existing.fy } :=
  nodesCopy_carryover prev incoming i hi hic existing hfind hfresh

/-- Witness for C2 at a concrete reconciliation pass. -/
theorem conservation_of_identity_witness :
    [wNodeOld].find? (fun p => p.id == [wNodeNew][0].id) = some wNodeOld ∧
    (nodesCopy [wNodeOld] [wNodeNew]).get ⟨0, by simp [nodesCopy]⟩ =
      { wNodeNew with
          x := some 5, y := some 6, vx := some 1, vy := some 2,
          fx := some 9, fy := none } :=
  ⟨by decide,
   conservation_of_identity [wNodeOld] [wNodeNew] 0 (by decide) (by simp [nodesCopy])
     wNodeOld (by decide) (by decide)⟩

/-- C3: Origin conflation in the fresh-position heuristic — an incoming
node whose coordinates are defined but whose x or y equals 0 is
classified as having no fresh position, so when a node with the same id
existed in the previous working set the supplied coordinates are
discarded and the previous state is carried over instead. -/
theorem origin_conflation (prev incoming : List TaskNode) (i : ℕ)
    (hi : i < incoming.length) (hic : i < (nodesCopy prev incoming).length)
    (existing : TaskNode)
    (hdefx : incoming[i].x ≠ none) (hdefy : incoming[i].y ≠ none)
    (hzero : incoming[i].x = some 0 ∨ incoming[i].y = some 0)
    (hfind : prev.find? (fun p => p.id == incoming[i].id) = some existing) :
    hasNewPosition incoming[i] = false ∧
    (nodesCopy prev incoming)[i] =
      { incoming[i] with
          x := existing.x, y := existing.y, vx := existing.vx, vy := existing.vy,
          fx := existing.fx, fy := existing.fy } := by
  have hfresh : hasNewPosition incoming[i] = false := by
    rcases hzero with h | h <;> simp [hasNewPosition, h]
  exact ⟨hfresh,
    nodesCopy_carryover prev incoming i hi hic existing hfind hfresh⟩

/-- Witness for C3: a node explicitly seeded at (250, 0) loses its
supplied coordinates to the carried-over previous state. -/
theorem origin_conflation_witness :
    [wNodeOrigin][0].x = some 250 ∧
    hasNewPosition [wNodeOrigin][0] = false ∧
    (nodesCopy [wNodeOld] [wNodeOrigin]).get ⟨0, by simp [nodesCopy]⟩ =
      { wNodeOrigin with
          x := some 5, y := some 6, vx := some 1, vy := some 2,
          fx := some 9, fy := none } := by
  refine ⟨by decide, ?_, ?_⟩
  · exact (origin_conflation [wNodeOld] [wNodeOrigin] 0 (by decide) (by simp [nodesCopy])
      wNodeOld (by decide) (by decide) (Or.inr (by decide)) (by decide)).1
  · exact (origin_conflation [wNodeOld] [wNodeOrigin] 0 (by decide) (by simp [nodesCopy])
      wNodeOld (by decide) (by decide) (Or.inr (by decide)) (by decide)).2

/-- C4: Edge filtering is silent — an edge belongs to the resolved edge
list exactly when it was supplied and both endpoint ids resolve to nodes
of the current working set; in particular an edge whose source or target
does not resolve is excluded, and the filter is a total function (no
exception is raised). -/
theorem edge_filtering (nodeIds : List String) (edges : List TaskEdge) (e : TaskEdge) :
    e ∈ validEdges nodeIds edges ↔
      e ∈ edges ∧ nodeIds.contains e.source.endpointId = true ∧
        nodeIds.contains e.target.endpointId = true := by
  simp [validEdges, List.mem_filter, Bool.and_eq_true, and_assoc]

/-- C5: Centering force target — the canvas centre when no node carries a
position; the centroid of exactly the positioned nodes otherwise; and in
the spec's seeding scenario (two nodes at (100,100) and (300,100) on an
800 by 600 canvas) the target is (200,100), not (400,300). -/
theorem centering_target (width height : ℚ) (ns : List TaskNode) :
    (positionedNodes ns = [] → centerTarget width height ns = (width / 2, height / 2)) ∧
    (positionedNodes ns ≠ [] →
      centerTarget width height ns =
        centroid ((positionedNodes ns).map (fun n => (orZero n.x, orZero n.y)))) ∧
    centerTarget 800 600 seededNodes = (200, 100) ∧
    centerTarget 800 600 seededNodes ≠ (400, 300) := by
  have hpos : positionedNodes seededNodes = seededNodes := by
    simp [positionedNodes, seededNodes]
  have hval : centerTarget 800 600 seededNodes = (200, 100) := by
    rw [centerTarget, hpos]
    norm_num [seededNodes, orZero]
  refine ⟨fun h => by simp [centerTarget, h], fun h => ?_, hval,
    by rw [hval]; intro hcontra; simpa using congrArg Prod.fst hcontra⟩
  have hlen : (positionedNodes ns).length ≠ 0 := by
    simpa [List.length_eq_zero] using h
  have h1 : (Prod.fst ∘ fun n : TaskNode => (orZero n.x, orZero n.y)) =
      fun n => orZero n.x := rfl
  have h2 : (Prod.snd ∘ fun n : TaskNode => (orZero n.x, orZero n.y)) =
      fun n => orZero n.y := rfl
  simp only [centerTarget, centroid, List.map_map, h1, h2]
  simp [hlen]

/-- Witness for C5: both branches of the target computation at concrete
inputs. -/
theorem centering_target_witness :
    centerTarget 800 600 [] = (400, 300) ∧
    centerTarget 800 600 seededNodes =
      centroid ((positionedNodes seededNodes).map (fun n => (orZero n.x, orZero n.y))) := by
  constructor
  · have h := (centering_target 800 600 []).1 rfl
    rw [h]
    norm_num
  · exact (centering_target 800 600 seededNodes).2.1
      (by simp [positionedNodes, seededNodes])

/-- A single zoom operation keeps a zoom value inside the clamp
interval. -/
theorem applyZoomOp_mem (cfg : ZoomConfig) (hcfg : cfg.minZoom ≤ cfg.maxZoom)
    (hstep : 0 ≤ cfg.zoomStep) (hbtn : 0 ≤ cfg.zoomButtonStep) (z : ℚ)
    (hlo : cfg.minZoom ≤ z) (hhi : z ≤ cfg.maxZoom) (op : ZoomOp) :
    cfg.minZoom ≤ applyZoomOp cfg z op ∧ applyZoomOp cfg z op ≤ cfg.maxZoom := by
  cases op with
  | wheel d =>
    exact ⟨le_min (le_max_right _ _) hcfg, min_le_right _ _⟩
  | zoomInBtn =>
    exact ⟨le_min (by linarith) hcfg, min_le_right _ _⟩
  | zoomOutBtn =>
    exact ⟨le_max_right _ _, max_le (by linarith) hcfg⟩

/-- C7: Zoom clamping invariant — for every sequence of wheel-zoom steps
and zoom-button steps starting inside `[minZoom, maxZoom]`, the resulting
zoom value never leaves `[minZoom, maxZoom]` (for any configuration with
`minZoom ≤ maxZoom` and nonnegative steps). -/
theorem zoom_clamping (cfg : ZoomConfig) (hcfg : cfg.minZoom ≤ cfg.maxZoom)
    (hstep : 0 ≤ cfg.zoomStep) (hbtn : 0 ≤ cfg.zoomButtonStep)
    (z : ℚ) (hlo : cfg.minZoom ≤ z) (hhi : z ≤ cfg.maxZoom) (ops : List ZoomOp) :
    cfg.minZoom ≤ applyZoomOps cfg z ops ∧ applyZoomOps cfg z ops ≤ cfg.maxZoom := by
  induction ops generalizing z with
  | nil => exact ⟨hlo, hhi⟩
  | cons op ops ih =>
    have h := applyZoomOp_mem cfg hcfg hstep hbtn z hlo hhi op
    simpa [applyZoomOps, List.foldl] using ih _ h.1 h.2

/-- Witness for C7 at a concrete configuration, start value and
operation sequence. -/
theorem zoom_clamping_witness :
    (1 / 4 : ℚ) ≤
      applyZoomOps ⟨1 / 4, 3, 1 / 10, 1 / 4⟩ 1
        [.wheel 1, .zoomInBtn, .zoomOutBtn, .wheel (-2)] ∧
    applyZoomOps ⟨1 / 4, 3, 1 / 10, 1 / 4⟩ 1
        [.wheel 1, .zoomInBtn, .zoomOutBtn, .wheel (-2)] ≤ 3 :=
  zoom_clamping ⟨1 / 4, 3, 1 / 10, 1 / 4⟩ (by norm_num) (by norm_num) (by norm_num)
    1 (by norm_num) (by norm_num) _

/-- C8: Minimap round-trip projection — for node bounds with positive
extent on both axes, the overlay-to-world inverse projection of the click
handler undoes the world-to-overlay projection exactly. -/
theorem minimap_round_trip (b : Bounds) (hx : b.minX < b.maxX)
    (hy : b.minY < b.maxY) (x y : ℚ) :
    miniMapClickToWorldX b (toMiniMapX b x) = x ∧
    miniMapClickToWorldY b (toMiniMapY b y) = y := by
  have hsx : (0 : ℚ) < (150 - 20 * 2) / (b.maxX - b.minX) :=
    div_pos (by norm_num) (sub_pos.mpr hx)
  have hsy : (0 : ℚ) < (100 - 20 * 2) / (b.maxY - b.minY) :=
    div_pos (by norm_num) (sub_pos.mpr hy)
  have hne : miniMapScale b ≠ 0 := ne_of_gt (lt_min hsx hsy)
  constructor
  · rw [miniMapClickToWorldX, toMiniMapX, add_sub_cancel_right,
      mul_div_cancel_right₀ _ hne, sub_add_cancel]
  · rw [miniMapClickToWorldY, toMiniMapY, add_sub_cancel_right,
      mul_div_cancel_right₀ _ hne, sub_add_cancel]

/-- Witness for C8 at concrete bounds and a concrete world point. -/
theorem minimap_round_trip_witness :
    miniMapClickToWorldX ⟨0, 100, 0, 50⟩ (toMiniMapX ⟨0, 100, 0, 50⟩ 10) = 10 ∧
    miniMapClickToWorldY ⟨0, 100, 0, 50⟩ (toMiniMapY ⟨0, 100, 0, 50⟩ 20) = 20 :=
  minimap_round_trip ⟨0, 100, 0, 50⟩ (by norm_num) (by norm_num) 10 20

/-- One more tick multiplies alpha by the geometric factor. -/
theorem alphaSeq_succ (n : ℕ) : alphaSeq (n + 1) = alphaStep 0 (alphaSeq n) := by
  simp [alphaSeq, Function.iterate_succ_apply']

/-- C9: Decay termination — with the configured geometric decay rate 0.02
and `alphaTarget` 0, the alpha of a simulation started from 1 is exactly
`(1 - 0.02) ^ n` after `n` ticks, and for every positive stop threshold
there is a tick count past which alpha stays below the threshold, so tick
emission ceases after a bounded number of ticks. -/
theorem decay_termination (eps : ℚ) (heps : 0 < eps) :
    (∀ n, alphaSeq n = (1 - alphaDecay) ^ n) ∧
    ∃ N, ∀ m, N ≤ m → alphaSeq m < eps := by
  have hgeom : ∀ n, alphaSeq n = (1 - alphaDecay) ^ n := by
    intro n
    induction n with
    | zero => simp [alphaSeq]
    | succ n ih =>
      rw [alphaSeq_succ, ih, alphaStep]
      ring
  refine ⟨hgeom, ?_⟩
  obtain ⟨N, hN⟩ :=
    exists_pow_lt_of_lt_one heps (show (1 - alphaDecay : ℚ) < 1 by norm_num [alphaDecay])
  refine ⟨N, fun m hm => ?_⟩
  rw [hgeom]
  calc (1 - alphaDecay : ℚ) ^ m ≤ (1 - alphaDecay) ^ N :=
        pow_le_pow_of_le_one (by norm_num [alphaDecay]) (by norm_num [alphaDecay]) hm
    _ < eps := hN

/-- Witness for C9 at the d3 default stop threshold 0.001. -/
theorem decay_termination_witness :
    (∀ n, alphaSeq n = (1 - alphaDecay) ^ n) ∧
    ∃ N, ∀ m, N ≤ m → alphaSeq m < 1 / 1000 :=
  decay_termination (1 / 1000) (by norm_num)

/-- C10: Programmatic centering is a no-op for origin-coordinate nodes —
when the selected node's x or y is undefined or exactly 0, `centerOnNode`
returns the view state unchanged, and the external-selection centering
effect leaves both the view state and the last-centered record
unchanged, for every canvas size, skip distance and prior view state. -/
theorem centering_noop (skipDistance width height : ℚ) (st : ViewState)
    (node : TaskNode)
    (hfalsy : node.x = none ∨ node.x = some 0 ∨ node.y = none ∨ node.y = some 0) :
    centerOnNode skipDistance width height st node = st ∧
    ∀ (nodes : List TaskNode) (selId : String) (lastId : Option String),
      nodes.find? (fun n => n.id == selId) = some node →
      centeringEffect skipDistance width height nodes (some selId) lastId st =
        (st, lastId) := by
  have htruthy : (truthy node.x && truthy node.y) = false := by
    rcases hfalsy with h | h | h | h <;> simp [truthy, h]
  have hcenter : centerOnNode skipDistance width height st node = st := by
    rw [centerOnNode, htruthy]
    simp
  refine ⟨hcenter, fun nodes selId lastId hfind => ?_⟩
  rw [centeringEffect]
  by_cases hlast : lastId == some selId
  · simp [hlast]
  · simp only [hlast, if_neg, Bool.false_eq_true, hfind, htruthy]
    simp

/-- Witness for C10: a node seeded on the y axis (x = 0) is never
centered and never recorded. -/
theorem centering_noop_witness :
    centerOnNode 10 800 600 ⟨1, 0, 0⟩
        { id := "a", title := "a", priority := .low, status := .todo,
          x := some 0, y := some 40 } = ⟨1, 0, 0⟩ ∧
    centeringEffect 10 800 600
        [{ id := "a", title := "a", priority := .low, status := .todo,
           x := some 0, y := some 40 }]
        (some "a") none ⟨1, 0, 0⟩ = (⟨1, 0, 0⟩, none) := by
  have h := centering_noop 10 800 600 ⟨1, 0, 0⟩
    { id := "a", title := "a", priority := .low, status := .todo,
      x := some 0, y := some 40 } (Or.inr (Or.inl rfl))
  exact ⟨h.1, h.2 _ "a" none (by decide)⟩

/-- A successful find means the list is not empty. -/
theorem isEmpty_false_of_find?_some {p : SimNode → Bool} {ns : List SimNode}
    {n : SimNode} (h : ns.find? p = some n) : ns.isEmpty = false := by
  cases ns with
  | nil => simp at h
  | cons a l => rfl

/-- Finding by id after updating the first id match applies the update to
the found node, provided the update preserves ids. -/
theorem find?_updateFirst (g : SimNode → SimNode) (hg : ∀ n, (g n).id = n.id)
    (A : String) (ns : List SimNode) :
    (updateFirst g A ns).find? (fun n => n.id == A) =
      (ns.find? (fun n => n.id == A)).map g := by
  induction ns with
  | nil => rfl
  | cons n ns ih =>
    by_cases h : n.id = A
    · simp [updateFirst, h, List.find?_cons, hg n]
    · simp [updateFirst, h, List.find?_cons, ih]

/-- Finding by id through a map applies the mapped function to the found
node, provided the function preserves ids. -/
theorem find?_map_id (g : SimNode → SimNode) (hg : ∀ n, (g n).id = n.id)
    (A : String) (ns : List SimNode) :
    (ns.map g).find? (fun n => n.id == A) =
      (ns.find? (fun n => n.id == A)).map g := by
  induction ns with
  | nil => rfl
  | cons n ns ih =>
    by_cases h : n.id = A
    · simp [List.find?_cons, hg n, h]
    · simp [List.find?_cons, hg n, h, ih]

/-- C1: Pin fidelity — for every sequence `beginPin(A)`, `movePin(A, x,
y)`, one tick, `endPin(A)`, the position of node A after the tick equals
`(x, y)` exactly, for every force pass (any per-node update preserving
`id`, `fx`, `fy`); and in general a node whose pin is set never moves
under integrator forces: after a tick its position is exactly its pin. -/
theorem pin_fidelity (A : String) (px py : ℚ) (s : SimState)
    (f : SimNode → SimNode)
    (hfid : ∀ n, (f n).id = n.id) (hffx : ∀ n, (f n).fx = n.fx)
    (hffy : ∀ n, (f n).fy = n.fy)
    (n0 : SimNode) (hA : s.nodes.find? (fun n => n.id == A) = some n0) :
    (∃ n, (handleDragEnd A (tickSim f (handleDrag A px py
        (handleDragStart A s)))).nodes.find? (fun n => n.id == A) = some n ∧
      n.x = px ∧ n.y = py) ∧
    (∀ m : SimNode, ∀ qx qy : ℚ, m.fx = some qx → m.fy = some qy →
      (integrate (f m)).x = qx ∧ (integrate (f m)).y = qy) := by
  have hIntId : ∀ n : SimNode, (integrate n).id = n.id := fun n => rfl
  have hPinned : ∀ m : SimNode, ∀ qx qy : ℚ, m.fx = some qx → m.fy = some qy →
      (integrate (f m)).x = qx ∧ (integrate (f m)).y = qy := by
    intro m qx qy hmx hmy
    have h1 : (f m).fx = some qx := by rw [hffx]; exact hmx
    have h2 : (f m).fy = some qy := by rw [hffy]; exact hmy
    simp [integrate, h1, h2]
  refine ⟨?_, hPinned⟩
  have hne1 : s.nodes.isEmpty = false := isEmpty_false_of_find?_some hA
  have hs1 : (handleDragStart A s).nodes = updateFirst pinAtCurrent A s.nodes := by
    simp [handleDragStart, hne1]
  have hf1 : (handleDragStart A s).nodes.find? (fun n => n.id == A) =
      some (pinAtCurrent n0) := by
    rw [hs1, find?_updateFirst pinAtCurrent (fun n => rfl) A s.nodes, hA]
    rfl
  have hne2 : (handleDragStart A s).nodes.isEmpty = false :=
    isEmpty_false_of_find?_some hf1
  have hs2 : (handleDrag A px py (handleDragStart A s)).nodes =
      updateFirst (pinAt px py) A (handleDragStart A s).nodes := by
    simp [handleDrag, hne2]
  have hf2 : (handleDrag A px py (handleDragStart A s)).nodes.find?
      (fun n => n.id == A) = some (pinAt px py (pinAtCurrent n0)) := by
    rw [hs2, find?_updateFirst (pinAt px py) (fun n => rfl) A _, hf1]
    rfl
  have hf3 : (tickSim f (handleDrag A px py (handleDragStart A s))).nodes.find?
      (fun n => n.id == A) =
      some (integrate (f (pinAt px py (pinAtCurrent n0)))) := by
    show (((handleDrag A px py (handleDragStart A s)).nodes.map f).map
      integrate).find? (fun n => n.id == A) = _
    rw [find?_map_id integrate hIntId, find?_map_id f hfid, hf2]
    rfl
  have hne3 : (tickSim f (handleDrag A px py (handleDragStart A s))).nodes.isEmpty =
      false := isEmpty_false_of_find?_some hf3
  have hs4 : (handleDragEnd A (tickSim f (handleDrag A px py
      (handleDragStart A s)))).nodes =
      updateFirst clearPin A (tickSim f (handleDrag A px py
        (handleDragStart A s))).nodes := by
    simp [handleDragEnd, hne3]
  have hf4 : (handleDragEnd A (tickSim f (handleDrag A px py
      (handleDragStart A s)))).nodes.find? (fun n => n.id == A) =
      some (clearPin (integrate (f (pinAt px py (pinAtCurrent n0))))) := by
    rw [hs4, find?_updateFirst clearPin (fun n => rfl) A _, hf3]
    rfl
  refine ⟨clearPin (integrate (f (pinAt px py (pinAtCurrent n0)))), hf4, ?_, ?_⟩
  · have := (hPinned (pinAt px py (pinAtCurrent n0)) px py rfl rfl).1
    simpa [clearPin] using this
  · have := (hPinned (pinAt px py (pinAtCurrent n0)) px py rfl rfl).2
    simpa [clearPin] using this

/-- Concrete simulation node for the pin-fidelity witness. -/
def wSimNode : SimNode :=
  { id := "a", x := 1, y := 2, vx := 3, vy := 4 }

/-- Concrete simulation state for the pin-fidelity witness. -/
def wSimState : SimState :=
  { nodes := [wSimNode], alpha := 1, alphaTarget := 0 }

/-- A concrete force pass for the pin-fidelity witness: it shifts the
position and velocity but leaves `id`, `fx`, `fy` alone, like every d3
force. -/
def wForce (n : SimNode) : SimNode :=
  { n with x := n.x + 100, vx := n.vx + 7 }

/-- Witness for C1 at a concrete one-node simulation and force pass. -/
theorem pin_fidelity_witness :
    wSimState.nodes.find? (fun n => n.id == "a") = some wSimNode ∧
    ∃ n, (handleDragEnd "a" (tickSim wForce (handleDrag "a" 42 17
        (handleDragStart "a" wSimState)))).nodes.find? (fun n => n.id == "a") =
      some n ∧ n.x = 42 ∧ n.y = 17 :=
  ⟨rfl,
   (pin_fidelity "a" 42 17 wSimState wForce (fun n => rfl) (fun n => rfl)
     (fun n => rfl) wSimNode rfl).1⟩

/-- C6: the code's click/drag disambiguation evaluated on concrete
gestures.  An under-threshold gesture (single move to (1,1)) fires the
selection callback and no pin cycle, as the claim states.  An
over-threshold gesture (moves to (10,0) and (20,5)) fires exactly one
`beginPin`/`endPin` cycle — but it also fires the selection callback,
because `handleMouseUp` clears the `isDragging` ref before the browser
delivers the click event, so the `!isDragging` guard in `handleClick`
passes; the claim says the selection callback never fires in that case. -/
theorem click_drag_disambiguation_eval :
    runGesture 0 0 [(1, 1)] =
      { hasMoved := false, isDragging := false,
        dragStarts := 0, dragEnds := 0, selects := 1 } ∧
    runGesture 0 0 [(10, 0), (20, 5)] =
      { hasMoved := true, isDragging := false,
        dragStarts := 1, dragEnds := 1, selects := 1 } := by
  constructor <;>
    norm_num [runGesture, gestureMouseMove, gestureMouseUp, gestureClick,
      moveThreshold, List.foldl, abs]

end Linkdo
